import Mathlib

/-!
# Verification of the social-deduction game engine

A shallow embedding of the Secret-Hitler-style game engine
(`game.py`, `player.py`) of this repository, together with proofs about
its vote rule, win evaluation, deck handling, role assignment,
agent-decision fallback behaviour and card-play validation.

Conventions of the embedding:

* Python strings stay strings (`"Liberal"`, `"Fascist"`, `"Hitler"`,
  `"JA"`, ...), so that the Lean definitions line up with the source
  line by line.
* `random.shuffle` and `random.choice` are modelled by an explicit
  `Oracle` of functions supplied to each operation; theorems that need
  the fact that shuffling permutes its input carry that fact as a
  hypothesis.
* Python exceptions (`StopIteration` from `next(...)`, `IndexError`,
  `ValueError`, a non-terminating `while` loop) are modelled by an
  `Except PyError` result.
* The `GameRecord` class used by `game.py` (fields
  `liberal_policies`, `fascist_policies`, `election_tracker`, methods
  `top_deck_enact`, `set_chancellor_discard_and_enact`, ...) is not
  part of the source tree; its counters are hosted directly on the
  game state and its enactment methods are modelled from the spec.
  Pure event-sink recorder calls (`record_vote`, `start_session`, ...)
  have no effect on engine state and are omitted.
-/

/-- One seat at the table: `Player.name`, `Player.role`, `Player.alive`
from `player.py` (`__init__`), restricted to the fields the engine in
`game.py` reads. -/
structure PlayerSt where
  name : String
  role : String
  alive : Bool
deriving Repr, DecidableEq

/-- The mutable state of `SecretHitlerGame` (`game.py`, `__init__`)
together with the three counters of the game record that the engine
reads and writes (`record.liberal_policies`, `record.fascist_policies`,
`record.election_tracker`). -/
structure GameState where
  players : List PlayerSt
  winner : Option String
  deck : List String
  discard : List String
  liberalPolicies : Nat
  fascistPolicies : Nat
  electionTracker : Nat
  vetoUnlocked : Bool
  presidentIndex : Nat
  lastElectedPresident : Option String
  lastElectedChancellor : Option String
  specialNextPresidentName : Option String
  specialReturnPresidentName : Option String
deriving Repr, DecidableEq

/-- The alive roster, `[p for p in self.players if p.alive]`. -/
def aliveOf (s : GameState) : List PlayerSt :=
  s.players.filter (fun p => p.alive)

/-- `game.py` line 173: `passed = ja > (len(alive) // 2)` — the
government passes when the JA tally strictly exceeds half (floor
division) of the alive voters. -/
def governmentPassed (ja nAlive : Nat) : Bool :=
  nAlive / 2 < ja

/-- `SecretHitlerGame.check_win` (`game.py` lines 278–287): returns
whether the game is over, caching the winner in the state.  A cached
winner short-circuits; otherwise 5 Liberal policies declare Liberals,
6 Fascist policies declare Fascists. -/
def check_win (s : GameState) : Bool × GameState :=
  match s.winner with
  | some _ => (true, s)
  | none =>
    if 5 ≤ s.liberalPolicies then (true, { s with winner := some "Liberals" })
    else if 6 ≤ s.fascistPolicies then (true, { s with winner := some "Fascists" })
    else (false, s)

/-- `SecretHitlerGame.draw_policies` (`game.py` lines 269–276),
parametrised by the shuffle.  The Python `while` loop merges the
discard pile into the deck and reshuffles; after one merge the discard
pile is empty, so every later iteration reshuffles the same multiset —
if the merged pile is still short the loop never terminates, which we
model as `none`.  Returns `(drawn, deck', discard')`. -/
def draw_policies (shuffle : List String → List String) (k : Nat)
    (deck discard : List String) : Option (List String × List String × List String) :=
  if k ≤ deck.length then
    some (deck.take k, deck.drop k, discard)
  else
    let merged := shuffle (deck ++ discard)
    if k ≤ merged.length then
      some (merged.take k, merged.drop k, [])
    else
      none

/-- `C1`: the government vote in `single_round` passes exactly when the
JA tally is strictly more than half of the alive voters
(`ja > len(alive) // 2`, equivalently `2 * ja > n` over the integers),
so a tally of exactly `N/2` approvals fails: with 4 alive voters 2
approvals fail and 3 pass, and with 5 alive voters 2 fail and 3 pass. -/
theorem vote_majority_strict :
    (∀ ja n : Nat, governmentPassed ja n = true ↔ n < 2 * ja) ∧
    governmentPassed 2 4 = false ∧ governmentPassed 3 4 = true ∧
    governmentPassed 2 5 = false ∧ governmentPassed 3 5 = true := by
  refine ⟨fun ja n => ?_, rfl, rfl, rfl, rfl⟩
  simp only [governmentPassed, decide_eq_true_eq]
  omega

/-- `C3`: once `winner` holds a value, `check_win` reports the game
over and returns the state unchanged — the same winner on every later
call, even after the policy counters are mutated to values that would
satisfy a different win predicate. -/
theorem check_win_idempotent (s : GameState) (w : String)
    (h : s.winner = some w) :
    check_win s = (true, s) ∧
    (∀ l f : Nat,
      check_win { s with liberalPolicies := l, fascistPolicies := f } =
        (true, { s with liberalPolicies := l, fascistPolicies := f })) := by
  constructor
  · simp [check_win, h]
  · intro l f
    simp [check_win, h]

/-- Witness for `check_win_idempotent` at a concrete state. -/
theorem check_win_idempotent_witness :
    check_win { players := [], winner := some "Liberals", deck := [],
                discard := [], liberalPolicies := 0, fascistPolicies := 6,
                electionTracker := 0, vetoUnlocked := false,
                presidentIndex := 0, lastElectedPresident := none,
                lastElectedChancellor := none,
                specialNextPresidentName := none,
                specialReturnPresidentName := none } =
      (true, { players := [], winner := some "Liberals", deck := [],
               discard := [], liberalPolicies := 0, fascistPolicies := 6,
               electionTracker := 0, vetoUnlocked := false,
               presidentIndex := 0, lastElectedPresident := none,
               lastElectedChancellor := none,
               specialNextPresidentName := none,
               specialReturnPresidentName := none }) :=
  (check_win_idempotent _ "Liberals" rfl).1

/-- `C5`: when the deck and discard pile together hold at least `k`
cards and the shuffle permutes its input, `draw_policies` succeeds,
returns exactly `k` cards, and conserves the card multiset; moreover
whenever the deck alone is short the whole discard pile is reshuffled
into the deck and the post-call discard pile is empty. -/
theorem draw_policies_conservation
    (shuffle : List String → List String)
    (hsh : ∀ l, (shuffle l).Perm l)
    (k : Nat) (deck discard : List String)
    (hk : k ≤ deck.length + discard.length) :
    ∃ out deck' discard',
      draw_policies shuffle k deck discard = some (out, deck', discard') ∧
      out.length = k ∧
      (out ++ deck' ++ discard').Perm (deck ++ discard) ∧
      (deck.length < k → discard' = []) := by
  unfold draw_policies
  by_cases h : k ≤ deck.length
  · refine ⟨deck.take k, deck.drop k, discard, by simp [h], ?_, ?_, ?_⟩
    · simp [h]
    · simp [List.take_append_drop]
    · omega
  · have hlen : (shuffle (deck ++ discard)).length = deck.length + discard.length := by
      simpa using (hsh (deck ++ discard)).length_eq
    have hk' : k ≤ (shuffle (deck ++ discard)).length := by omega
    refine ⟨(shuffle (deck ++ discard)).take k,
            (shuffle (deck ++ discard)).drop k, [], ?_, ?_, ?_, fun _ => rfl⟩
    · simp [h, hk']
    · simp; omega
    · have heq : (shuffle (deck ++ discard)).take k ++ (shuffle (deck ++ discard)).drop k
          ++ ([] : List String) = shuffle (deck ++ discard) := by
        simp [List.take_append_drop]
      rw [heq]
      exact hsh (deck ++ discard)

/-! ## Card play (`player.py`, `Player.choose_cards_to_play`) -/

/-- Python `list.remove(x)`: delete the first occurrence of `x`, or
raise `ValueError` (`none`) when `x` is absent. -/
def list_remove : List String → String → Option (List String)
  | [], _ => none
  | c :: rest, x => if c = x then some rest else (list_remove rest x).map (c :: ·)

/-- The removal loop `for card in result["played_cards"]:
self.hand.remove(card)` of `choose_cards_to_play`.  On a `ValueError`
(`.error`) the removals already performed persist, so the error carries
the hand as it stands at the exception. -/
def remove_played : List String → List String → Except (List String) (List String)
  | hand, [] => .ok hand
  | hand, c :: cs =>
    match list_remove hand c with
    | none => .error hand
    | some hand' => remove_played hand' cs

/-- One iteration of the retry loop of `choose_cards_to_play`
(`player.py` lines 122–155).  The input is the parsed `played_cards`
list of the LLM reply, or `none` when the reply raised, had no JSON or
lacked a required key.  `.ok (played, hand')` models the successful
return; `.error hand'` models a failed attempt together with the hand
it leaves behind (the validation checks membership and a 1–3 count
against the current hand, then removes card by card, and the
`except Exception` swallows a mid-removal `ValueError`). -/
def play_attempt (hand : List String) : Option (List String) →
    Except (List String) (List String × List String)
  | none => .error hand
  | some played =>
    if (∀ c ∈ played, c ∈ hand) ∧ 1 ≤ played.length ∧ played.length ≤ 3 then
      match remove_played hand played with
      | .ok hand' => .ok (played, hand')
      | .error handPartial => .error handPartial
    else .error hand

/-- `Player.choose_cards_to_play`: up to five attempts with the same
prompt; the first valid reply mutates the hand and returns, and after
the last failure a `RuntimeError` is raised (`.error` carrying the
final hand).  The Python call corresponds to a response list of length
5. -/
def choose_cards_to_play (hand : List String) :
    List (Option (List String)) → Except (List String) (List String × List String)
  | [] => .error hand
  | resp :: rest =>
    match play_attempt hand resp with
    | .ok r => .ok r
    | .error hand' => choose_cards_to_play hand' rest

theorem list_remove_perm (hand : List String) (c : String) (hand' : List String)
    (h : list_remove hand c = some hand') : hand.Perm (c :: hand') := by
  induction hand generalizing hand' with
  | nil => simp [list_remove] at h
  | cons a rest ih =>
    by_cases hac : a = c
    · simp [list_remove, hac] at h
      subst h hac
      exact List.Perm.refl _
    · simp [list_remove, hac] at h
      obtain ⟨l, hl, rfl⟩ := h
      exact (List.Perm.cons a (ih l hl)).trans (List.Perm.swap c a l)

theorem remove_played_perm (hand played hand' : List String)
    (h : remove_played hand played = .ok hand') : hand.Perm (played ++ hand') := by
  induction played generalizing hand with
  | nil => simp [remove_played] at h; simp [h]
  | cons c cs ih =>
    simp only [remove_played] at h
    cases hr : list_remove hand c with
    | none => simp [hr] at h
    | some h1 =>
      rw [hr] at h
      exact (list_remove_perm hand c h1 hr).trans (List.Perm.cons c (ih h1 h))

theorem remove_played_error_subperm (hand played hand' : List String)
    (h : remove_played hand played = .error hand') : hand'.Subperm hand := by
  induction played generalizing hand with
  | nil => simp [remove_played] at h
  | cons c cs ih =>
    simp only [remove_played] at h
    cases hr : list_remove hand c with
    | none =>
      rw [hr] at h
      cases h
      exact List.Subperm.refl _
    | some h1 =>
      rw [hr] at h
      have h1sub : h1.Subperm hand :=
        ((List.sublist_cons_self c h1).subperm).trans
          (list_remove_perm hand c h1 hr).symm.subperm
      exact (ih h1 h).trans h1sub

theorem play_attempt_error_subperm (hand : List String)
    (resp : Option (List String)) (hand' : List String)
    (h : play_attempt hand resp = .error hand') : hand'.Subperm hand := by
  cases resp with
  | none =>
    simp [play_attempt] at h
    subst h
    exact List.Subperm.refl _
  | some played =>
    simp only [play_attempt] at h
    split at h
    · cases hr : remove_played hand played with
      | ok h2 => rw [hr] at h; cases h
      | error h2 =>
        rw [hr] at h
        cases h
        exact remove_played_error_subperm hand played hand' hr
    · cases h
      exact List.Subperm.refl _

theorem play_attempt_ok (hand : List String) (resp : Option (List String))
    (played hand' : List String)
    (h : play_attempt hand resp = .ok (played, hand')) :
    1 ≤ played.length ∧ played.length ≤ 3 ∧ (∀ c ∈ played, c ∈ hand) ∧
      hand.Perm (played ++ hand') := by
  cases resp with
  | none => simp [play_attempt] at h
  | some cards =>
    simp only [play_attempt] at h
    split at h
    · rename_i hvalid
      cases hr : remove_played hand cards with
      | ok h2 =>
        rw [hr] at h
        cases h
        exact ⟨hvalid.2.1, hvalid.2.2, hvalid.1, remove_played_perm _ _ _ hr⟩
      | error h2 => rw [hr] at h; cases h
    · cases h

theorem choose_cards_ok (hand : List String)
    (resps : List (Option (List String))) (played hand' : List String)
    (h : choose_cards_to_play hand resps = .ok (played, hand')) :
    1 ≤ played.length ∧ played.length ≤ 3 ∧ ∀ c ∈ played, c ∈ hand := by
  induction resps generalizing hand with
  | nil => simp [choose_cards_to_play] at h
  | cons resp rest ih =>
    simp only [choose_cards_to_play] at h
    cases ha : play_attempt hand resp with
    | ok r =>
      rw [ha] at h
      cases h
      obtain ⟨h1, h2, h3, _⟩ := play_attempt_ok hand resp played hand' ha
      exact ⟨h1, h2, h3⟩
    | error hand1 =>
      rw [ha] at h
      obtain ⟨h1, h2, h3⟩ := ih hand1 h
      refine ⟨h1, h2, fun c hc => ?_⟩
      exact (play_attempt_error_subperm hand resp hand1 ha).subset (h3 c hc)

/-- `C10` (amended): whenever an attempt of `choose_cards_to_play`
succeeds it returns between 1 and 3 cards, each present in the hand as
it stood at that attempt, and the hand afterwards is that hand with
exactly those occurrences removed (the hand is a permutation of the
played cards plus the remaining hand); a parse failure or a validation
failure leaves the hand unchanged; and every successful call returns
1–3 cards that all occurred in the hand at the start of the call.
(The unamended per-attempt "hand unchanged on failure" is refuted
separately: a mid-removal `ValueError` preserves the partial
removal.) -/
theorem choose_cards_to_play_postconditions :
    (∀ hand resp played hand',
      play_attempt hand resp = .ok (played, hand') →
      1 ≤ played.length ∧ played.length ≤ 3 ∧ (∀ c ∈ played, c ∈ hand) ∧
        hand.Perm (played ++ hand')) ∧
    (∀ hand, play_attempt hand none = .error hand) ∧
    (∀ hand played,
      ¬((∀ c ∈ played, c ∈ hand) ∧ 1 ≤ played.length ∧ played.length ≤ 3) →
      play_attempt hand (some played) = .error hand) ∧
    (∀ hand resps played hand',
      choose_cards_to_play hand resps = .ok (played, hand') →
      1 ≤ played.length ∧ played.length ≤ 3 ∧ ∀ c ∈ played, c ∈ hand) := by
  refine ⟨play_attempt_ok, fun hand => rfl, fun hand played hbad => ?_,
    choose_cards_ok⟩
  simp only [play_attempt]
  rw [if_neg hbad]

/-- `C10` counterexample: an attempt that plays `["Q", "Q"]` from the
hand `["Q", "K"]` passes the membership check (each card is *somewhere*
in the hand), removes the only `"Q"`, and then raises `ValueError` on
the second removal — the attempt fails yet the hand has shrunk to
`["K"]`, so a failing attempt does not always leave the hand
unchanged. -/
theorem choose_cards_to_play_mutates_on_failed_attempt :
    choose_cards_to_play ["Q", "K"] [some ["Q", "Q"], none, none, none, none] =
      .error ["K"] ∧ ("K" :: []) ≠ ["Q", "K"] := by
  constructor
  · rfl
  · decide

/-! ## The round engine (`game.py`, `SecretHitlerGame.single_round`) -/

/-- The Python exceptions the engine can raise, plus `infiniteLoop` for
a reshuffle `while` loop that can never exit (see `draw_policies`). -/
inductive PyError where
  | stopIteration
  | indexError
  | valueError
  | infiniteLoop
deriving Repr, DecidableEq

/-- The random choices of a round: `random.shuffle` and
`random.choice` (the latter as an index chooser). -/
structure Oracle where
  shuffle : List String → List String
  pickIdx : List String → Nat

/-- Python `random.choice(l)`: an element of `l` picked by the oracle
(the modulus keeps the index legal; `random.choice` on an empty list,
which no engine call site reaches, yields the dummy `""`). -/
def py_choice (o : Oracle) (l : List String) : String :=
  l.getD (o.pickIdx l % l.length) ""

/-- The agent decisions one round consumes, one slot per decision
point of `single_round` / `apply_executive_powers`.  In the source each
is an LLM reply already stripped to a string; here they are plain
inputs. -/
structure Agent where
  nominee : String
  vote : String → String
  presDiscard : String
  vetoRequest : String
  vetoAccept : String
  chanDiscard : String
  investigateTarget : String
  specialPresident : String
  executionTarget : String

/-- The fallback pattern at the president/chancellor discard sites
(`game.py` lines 205–206 and 236–237): an illegal choice is replaced by
`random.choice` over the legal list. -/
def legal_or_random (o : Oracle) (choice : String) (legal : List String) : String :=
  if choice ∈ legal then choice else py_choice o legal

/-- `jaCount`: `ja = sum(1 for v in votes.values() if v == "JA")`
(`game.py` line 172), with one ballot per alive player. -/
def jaCount (a : Agent) (aliveNames : List String) : Nat :=
  (aliveNames.filter (fun nm => a.vote nm = "JA")).length

/-- Modelled from the spec: `GameRecord.top_deck_enact` is called by
`single_round` but the Secret-Hitler `GameRecord` class is not among
the source files.  Per the spec, a forced top-deck enactment is a
successful enactment: it increments the enacted policy tally and
"the election-failure tracker ... resets to zero on every successful
enactment". -/
def top_deck_enact (policy : String) (s : GameState) : GameState :=
  if policy = "Liberal" then
    { s with liberalPolicies := s.liberalPolicies + 1, electionTracker := 0 }
  else
    { s with fascistPolicies := s.fascistPolicies + 1, electionTracker := 0 }

/-- Modelled from the spec: `GameRecord.set_chancellor_discard_and_enact`
is called by `single_round` but the Secret-Hitler `GameRecord` class is
not among the source files.  Per the spec it records the enacted policy
(incrementing the cumulative tally) and, being a successful enactment,
resets the election tracker to zero. -/
def enact_policy (policy : String) (s : GameState) : GameState :=
  if policy = "Liberal" then
    { s with liberalPolicies := s.liberalPolicies + 1, electionTracker := 0 }
  else
    { s with fascistPolicies := s.fascistPolicies + 1, electionTracker := 0 }

/-- The alive names, `SecretHitlerGame._alive_names`. -/
def aliveNamesOf (s : GameState) : List String :=
  (aliveOf s).map (fun p => p.name)

/-- The power unlocked by the `fp`-th Fascist policy at the given table
size (`apply_executive_powers`, `game.py` lines 306–320); the Python
code always builds a list of at most one power. -/
def powersFor (n fp : Nat) : List String :=
  if n ≤ 6 then
    if fp = 3 then ["policy_peek"]
    else if fp = 4 ∨ fp = 5 then ["execution"]
    else []
  else if n ≤ 8 then
    if fp = 2 then ["investigate"]
    else if fp = 3 then ["special_election"]
    else if fp = 4 ∨ fp = 5 then ["execution"]
    else []
  else
    if fp = 1 ∨ fp = 2 then ["investigate"]
    else if fp = 3 then ["special_election"]
    else if fp = 4 ∨ fp = 5 then ["execution"]
    else []

/-- `victim.alive = False` on the first player with the given name
(Python's `next(...)` yields the first match and is mutated in
place). -/
def kill_first (nm : String) : List PlayerSt → List PlayerSt
  | [] => []
  | p :: rest =>
    if p.name = nm then { p with alive := false } :: rest
    else p :: kill_first nm rest

/-- One branch of the `for power in powers` loop of
`apply_executive_powers` (`game.py` lines 322–393).  Investigation
only writes private/recorder data; special election schedules the next
president; policy peek may reshuffle; execution kills the target
(self-execution is redirected to a random other alive player) and an
executed Hitler hands the Liberals the win. -/
def apply_power (o : Oracle) (a : Agent) (presidentName : String)
    (power : String) (s : GameState) : Except PyError GameState :=
  if power = "investigate" then
    match s.players.find? (fun p => p.name = a.investigateTarget) with
    | none => .error .stopIteration
    | some _ => .ok s
  else if power = "special_election" then
    let order := aliveNamesOf s
    match order.findIdx? (fun nm => nm = presidentName) with
    | none => .error .valueError
    | some idx =>
      .ok { s with specialNextPresidentName := some a.specialPresident,
                   specialReturnPresidentName :=
                     some (order.getD ((idx + 1) % order.length) "") }
  else if power = "policy_peek" then
    if 3 ≤ s.deck.length then .ok s
    else
      let merged := o.shuffle (s.deck ++ s.discard)
      if 3 ≤ merged.length then .ok { s with deck := merged, discard := [] }
      else .error .infiniteLoop
  else if power = "execution" then
    let aliveNames := aliveNamesOf s
    if aliveNames.length ≤ 2 then .ok s
    else
      let t0 := a.executionTarget
      let target :=
        if t0 = presidentName then
          py_choice o (aliveNames.filter (fun nm => nm ≠ presidentName))
        else t0
      match s.players.find? (fun p => p.name = target) with
      | none => .error .stopIteration
      | some victim =>
        let s' := { s with players := kill_first target s.players }
        if victim.role = "Hitler" then .ok { s' with winner := some "Liberals" }
        else .ok s'
  else .ok s

/-- `SecretHitlerGame.apply_executive_powers` (`game.py` lines
302–393): compute the power list from the alive count and the Fascist
tally, then run it. -/
def apply_executive_powers (o : Oracle) (a : Agent) (presidentName : String)
    (s : GameState) : Except PyError GameState :=
  (powersFor (aliveOf s).length s.fascistPolicies).foldlM
    (fun st pw => apply_power o a presidentName pw st) s

/-- `single_round` lines 103–110: resolve the round's president — a
scheduled special-election president (looked up with `next(...)`, a
`StopIteration` if dead) or the seat at `president_index` (an
`IndexError` if out of range). -/
def president_step (s : GameState) (alive : List PlayerSt) :
    Except PyError (PlayerSt × Bool × GameState) :=
  match s.specialNextPresidentName with
  | some nm =>
    match alive.find? (fun p => p.name = nm) with
    | none => .error .stopIteration
    | some p => .ok (p, true, { s with specialNextPresidentName := none })
  | none =>
    match alive[s.presidentIndex]? with
    | none => .error .indexError
    | some p => .ok (p, false, s)

/-- `single_round` lines 189–199, the failed-government branch: the
tracker increments by one; at three or more a top-deck policy is drawn
and enacted; the presidency rotates. -/
def failed_government (o : Oracle) (s : GameState) (alive : List PlayerSt) :
    Except PyError GameState :=
  let s1 := { s with electionTracker := s.electionTracker + 1 }
  if 3 ≤ s1.electionTracker then
    match draw_policies o.shuffle 1 s1.deck s1.discard with
    | none => .error .infiniteLoop
    | some (out, deck', discard') =>
      match out with
      | [] => .error .indexError
      | top :: _ =>
        let s2 := top_deck_enact top { s1 with deck := deck', discard := discard' }
        .ok { s2 with presidentIndex := (s.presidentIndex + 1) % alive.length }
  else
    .ok { s1 with presidentIndex := (s.presidentIndex + 1) % alive.length }

/-- `single_round` lines 234–267 from the chancellor's discard on: the
chancellor is looked up again, discards one of the two policies (an
illegal discard replaced by `random.choice`), the remaining policy is
enacted, the veto flag is refreshed, executive powers fire on a
Fascist enactment, term limits update, and the presidency rotates
(honouring a pending special-election return seat). -/
def chancellor_enact (o : Oracle) (a : Agent) (presidentName nominee : String)
    (specialInEffect : Bool) (alive : List PlayerSt)
    (twoForChancellor : List String) (s : GameState) : Except PyError GameState :=
  match alive.find? (fun p => p.name = nominee) with
  | none => .error .stopIteration
  | some _ =>
    let chanDiscard := legal_or_random o a.chanDiscard twoForChancellor
    let rest := twoForChancellor.erase chanDiscard
    let s4 := { s with discard := s.discard ++ [chanDiscard] }
    match rest with
    | [] => .error .indexError
    | enacted :: _ =>
      let s5 := enact_policy enacted s4
      let s5 := { s5 with vetoUnlocked := decide (5 ≤ s5.fascistPolicies) }
      let powRes :=
        if enacted = "Fascist" then apply_executive_powers o a presidentName s5
        else .ok s5
      match powRes with
      | .error e => .error e
      | .ok s6 =>
        let s7 := { s6 with lastElectedPresident := some presidentName,
                            lastElectedChancellor := some nominee }
        let alive2 := aliveOf s7
        if specialInEffect then
          match s7.specialReturnPresidentName with
          | some rn =>
            let names2 := alive2.map (fun p => p.name)
            let s8 :=
              match names2.findIdx? (fun nm => nm = rn) with
              | some idx => { s7 with presidentIndex := idx }
              | none =>
                { s7 with presidentIndex := (s7.presidentIndex + 1) % alive2.length }
            .ok { s8 with specialReturnPresidentName := none }
          | none =>
            .ok { s7 with presidentIndex := (s7.presidentIndex + 1) % alive2.length }
        else
          .ok { s7 with presidentIndex := (s7.presidentIndex + 1) % alive2.length }

/-- `single_round` lines 202–232, the legislative session: draw three,
president discards one (illegal discards replaced by `random.choice`),
then — when the veto is unlocked by five Fascist policies — an
accepted chancellor veto discards both remaining policies, bumps the
tracker and ends the round; otherwise the chancellor enacts. -/
def legislative_session (o : Oracle) (a : Agent) (presidentName nominee : String)
    (specialInEffect : Bool) (alive : List PlayerSt) (s : GameState) :
    Except PyError GameState :=
  match draw_policies o.shuffle 3 s.deck s.discard with
  | none => .error .infiniteLoop
  | some (draw3, deck', discard') =>
    let s2 := { s with deck := deck', discard := discard' }
    let presDiscard := legal_or_random o a.presDiscard draw3
    let twoForChancellor := draw3.erase presDiscard
    let s3 := { s2 with discard := s2.discard ++ [presDiscard] }
    let s3 := { s3 with vetoUnlocked := decide (5 ≤ s3.fascistPolicies) }
    if s3.vetoUnlocked ∧ a.vetoRequest = "VETO" then
      if a.vetoAccept = "ACCEPT" then
        .ok { s3 with discard := s3.discard ++ twoForChancellor,
                      electionTracker := s3.electionTracker + 1 }
      else
        chancellor_enact o a presidentName nominee specialInEffect alive
          twoForChancellor s3
    else
      chancellor_enact o a presidentName nominee specialInEffect alive
        twoForChancellor s3

/-- `SecretHitlerGame.single_round` (`game.py` lines 99–267): resolve
the president, collect the vote over the alive players, check the
Hitler-elected instant win, and dispatch to the failed-government or
legislative branch.  Table talk and recorder calls touch no engine
state and are omitted. -/
def single_round (o : Oracle) (a : Agent) (s : GameState) :
    Except PyError GameState :=
  let alive := aliveOf s
  let aliveNames := alive.map (fun p => p.name)
  match president_step s alive with
  | .error e => .error e
  | .ok (president, specialInEffect, s1) =>
    let nominee := a.nominee
    let ja := jaCount a aliveNames
    let passed := governmentPassed ja alive.length
    if passed then
      match alive.find? (fun p => p.name = nominee) with
      | none => .error .stopIteration
      | some chObj =>
        if chObj.role = "Hitler" ∧ 3 ≤ s1.fascistPolicies then
          .ok { s1 with winner := some "Fascists" }
        else
          legislative_session o a president.name nominee specialInEffect alive s1
    else
      failed_government o s1 alive

/-- `SecretHitlerGame.start_game` (`game.py` lines 90–97), fuel-bounded:
`while not self.check_win(): self.single_round(...)`.  `.ok (some s)`
is normal termination with the final state, `.ok none` means the loop
was still running when the fuel ran out, `.error` a raised exception. -/
def run_game (o : Oracle) (a : Agent) : Nat → GameState →
    Except PyError (Option GameState)
  | 0, _ => .ok none
  | fuel + 1, s =>
    match check_win s with
    | (true, s') => .ok (some s')
    | (false, s') =>
      match single_round o a s' with
      | .error e => .error e
      | .ok s'' => run_game o a fuel s''

/-- `C2`: in `single_round`, when the government vote passes, the
elected chancellor's role is Hitler and at least three Fascist
policies have been enacted, the round ends at once with the winner set
to Fascists and *nothing else changed*: the resulting state is the
input state with only `winner := "Fascists"`, so no policy is drawn,
discarded or enacted and no executive power fires. -/
theorem hitler_elected_instant_win (o : Oracle) (a : Agent) (s : GameState)
    (p ch : PlayerSt)
    (hspecial : s.specialNextPresidentName = none)
    (hpres : (aliveOf s)[s.presidentIndex]? = some p)
    (hpassed : governmentPassed (jaCount a (aliveNamesOf s)) (aliveOf s).length = true)
    (hch : (aliveOf s).find? (fun q => q.name = a.nominee) = some ch)
    (hrole : ch.role = "Hitler")
    (hfasc : 3 ≤ s.fascistPolicies) :
    single_round o a s = .ok { s with winner := some "Fascists" } := by
  have hnames : (aliveOf s).map (fun q => q.name) = aliveNamesOf s := rfl
  simp only [single_round, president_step, hspecial, hpres, hnames, hpassed,
    if_true, hch]
  simp [hrole, hfasc]

/-! ## Concrete fixtures (the 5-player table of `game.py`'s `__main__`) -/

/-- An oracle whose shuffle is the identity and whose `random.choice`
always picks index 0. -/
def id_oracle : Oracle := ⟨id, fun _ => 0⟩

def demo_players : List PlayerSt :=
  [{ name := "Sarah", role := "Liberal", alive := true },
   { name := "Derek", role := "Liberal", alive := true },
   { name := "Emma",  role := "Liberal", alive := true },
   { name := "Talia", role := "Fascist", alive := true },
   { name := "Maria", role := "Hitler",  alive := true }]

def demo_state : GameState :=
  { players := demo_players, winner := none,
    deck := ["Fascist", "Liberal", "Fascist", "Liberal", "Fascist"],
    discard := [], liberalPolicies := 0, fascistPolicies := 0,
    electionTracker := 0, vetoUnlocked := false, presidentIndex := 0,
    lastElectedPresident := none, lastElectedChancellor := none,
    specialNextPresidentName := none, specialReturnPresidentName := none }

def all_ja_agent : Agent :=
  { nominee := "Derek", vote := fun _ => "JA", presDiscard := "Liberal",
    vetoRequest := "NO", vetoAccept := "NO", chanDiscard := "Liberal",
    investigateTarget := "Sarah", specialPresident := "Derek",
    executionTarget := "Derek" }

/-- Witness for `hitler_elected_instant_win`: with three Fascist
policies on the board, electing Hitler (`Maria`) ends the round with a
Fascist win and an otherwise untouched state. -/
theorem hitler_elected_instant_win_witness :
    single_round id_oracle { all_ja_agent with nominee := "Maria" }
      { demo_state with fascistPolicies := 3 } =
      .ok { demo_state with fascistPolicies := 3, winner := some "Fascists" } :=
  hitler_elected_instant_win id_oracle
    { all_ja_agent with nominee := "Maria" }
    { demo_state with fascistPolicies := 3 }
    { name := "Sarah", role := "Liberal", alive := true }
    { name := "Maria", role := "Hitler", alive := true }
    rfl rfl rfl rfl rfl (by decide)

theorem chancellor_enact_veto_request_irrelevant (o : Oracle)
    (nm pd : String) (vote : String → String) (vr1 vr2 va cd it sp et : String)
    (presidentName nominee : String) (specialInEffect : Bool)
    (alive : List PlayerSt) (two : List String) (s : GameState) :
    chancellor_enact o ⟨nm, vote, pd, vr1, va, cd, it, sp, et⟩ presidentName
        nominee specialInEffect alive two s =
      chancellor_enact o ⟨nm, vote, pd, vr2, va, cd, it, sp, et⟩ presidentName
        nominee specialInEffect alive two s := rfl

/-- `C9`: with the veto unlocked by five or more enacted Fascist
policies, a chancellor veto request that the president accepts turns
the pending enactment into no enactment — the two policies held by the
chancellor go to the discard pile, the election tracker increments by
exactly one, and the round ends with no policy enacted (tallies and
winner untouched); if the president does not answer `"ACCEPT"`, the
round is the same as if the chancellor had never requested the veto. -/
theorem veto_round (o : Oracle) (a : Agent) (s : GameState) (p ch : PlayerSt)
    (draw3 deck' discard' : List String)
    (hspecial : s.specialNextPresidentName = none)
    (hpres : (aliveOf s)[s.presidentIndex]? = some p)
    (hpassed : governmentPassed (jaCount a (aliveNamesOf s)) (aliveOf s).length = true)
    (hch : (aliveOf s).find? (fun q => q.name = a.nominee) = some ch)
    (hrole : ch.role ≠ "Hitler")
    (hfasc : 5 ≤ s.fascistPolicies)
    (hdraw : draw_policies o.shuffle 3 s.deck s.discard = some (draw3, deck', discard'))
    (hreq : a.vetoRequest = "VETO") :
    (a.vetoAccept = "ACCEPT" →
      single_round o a s =
        .ok { s with
              deck := deck',
              discard := discard' ++ [legal_or_random o a.presDiscard draw3] ++
                draw3.erase (legal_or_random o a.presDiscard draw3),
              electionTracker := s.electionTracker + 1,
              vetoUnlocked := true }) ∧
    (∀ y, y ≠ "VETO" → a.vetoAccept ≠ "ACCEPT" →
      single_round o a s = single_round o { a with vetoRequest := y } s) := by
  have hdec : decide (5 ≤ s.fascistPolicies) = true := decide_eq_true hfasc
  have hstep : ∀ (a' : Agent), a'.nominee = a.nominee → a'.vote = a.vote →
      single_round o a' s =
        legislative_session o a' p.name a.nominee false (aliveOf s) s := by
    intro a' hn hv
    have hnames : (aliveOf s).map (fun q => q.name) = aliveNamesOf s := rfl
    have hja : jaCount a' (aliveNamesOf s) = jaCount a (aliveNamesOf s) := by
      simp [jaCount, hv]
    simp only [single_round, president_step, hspecial, hpres, hnames, hn, hja,
      hpassed, if_true, hch]
    rw [if_neg]
    exact fun hcontra => hrole hcontra.1
  constructor
  · intro hacc
    rw [hstep a rfl rfl]
    simp only [legislative_session, hdraw, hdec, hreq, hacc]
    simp
  · intro y hy hacc
    rw [hstep a rfl rfl, hstep { a with vetoRequest := y } rfl rfl]
    rcases a with ⟨nom, vt, pd, vr, va, cd, it, sp, et⟩
    simp only at hreq hacc
    subst hreq
    simp only [legislative_session, hdraw, hdec]
    rw [if_pos, if_neg hacc, if_neg]
    · exact chancellor_enact_veto_request_irrelevant o nom pd vt "VETO" y va cd it sp et
        p.name nom false (aliveOf s) _ _
    · exact fun hcontra => hy hcontra.2
    · exact ⟨by simp [hdec], trivial⟩

/-- Witness for `veto_round`: five Fascist policies on the board, the
government passes, the chancellor (`Derek`, a Liberal) requests the
veto and the president accepts — both remaining policies land in the
discard pile, the tracker moves to 1, nothing is enacted. -/
theorem veto_round_witness :
    single_round id_oracle
      { all_ja_agent with vetoRequest := "VETO", vetoAccept := "ACCEPT" }
      { demo_state with fascistPolicies := 5 } =
      .ok { demo_state with
            fascistPolicies := 5,
            deck := ["Liberal", "Fascist"],
            discard := ["Liberal", "Fascist", "Fascist"],
            electionTracker := 1,
            vetoUnlocked := true } :=
  (veto_round id_oracle
    { all_ja_agent with vetoRequest := "VETO", vetoAccept := "ACCEPT" }
    { demo_state with fascistPolicies := 5 }
    { name := "Sarah", role := "Liberal", alive := true }
    { name := "Derek", role := "Liberal", alive := true }
    ["Fascist", "Liberal", "Fascist"] ["Liberal", "Fascist"] []
    rfl rfl rfl rfl (by decide) (by decide) rfl rfl).1 rfl


/-! ## Game loop and agent fallbacks -/

theorem check_win_true_has_winner (s : GameState)
    (h : (check_win s).1 = true) : (check_win s).2.winner.isSome = true := by
  cases hw : s.winner with
  | some w => simp [check_win, hw]
  | none =>
    by_cases h5 : 5 ≤ s.liberalPolicies
    · simp [check_win, hw, h5]
    · by_cases h6 : 6 ≤ s.fascistPolicies
      · simp [check_win, hw, h5, h6]
      · simp [check_win, hw, h5, h6] at h

/-- `C6` (amended): `start_game` loops `single_round` until `check_win`
is true, with no maximum round count and no wall-clock budget; the only
way the loop returns normally is that `check_win` has declared a
winner, so every normally-terminating run ends with `winner` set. -/
theorem run_game_terminates_only_with_winner (o : Oracle) (a : Agent)
    (fuel : Nat) (s s' : GameState)
    (h : run_game o a fuel s = .ok (some s')) : s'.winner.isSome = true := by
  induction fuel generalizing s with
  | zero => simp [run_game] at h
  | succ n ih =>
    rw [run_game] at h
    split at h
    · rename_i s1 heq
      cases h
      have hmem := check_win_true_has_winner s (by rw [heq])
      rw [heq] at hmem
      exact hmem
    · rename_i s1 heq
      split at h
      · cases h
      · rename_i s2 hr
        exact ih s2 h

/-- Witness for `run_game_terminates_only_with_winner`: a state with
five Liberal policies terminates at once with the Liberal win
declared. -/
theorem run_game_terminates_only_with_winner_witness :
    (({ demo_state with
        liberalPolicies := 5,
        winner := some "Liberals" } : GameState).winner.isSome = true) :=
  run_game_terminates_only_with_winner id_oracle all_ja_agent 1
    { demo_state with liberalPolicies := 5 }
    { demo_state with liberalPolicies := 5, winner := some "Liberals" } rfl

/-- `C6` counterexample: a game does *not* always terminate with a
declared winner — an agent that nominates a non-player ("Nobody")
while the vote passes aborts `start_game` abnormally with the
`StopIteration` of `next(p for p in alive if p.name == nominee)`
(`game.py` line 178); no fallback substitutes a legal nominee. -/
theorem bad_nominee_aborts_game :
    run_game id_oracle { all_ja_agent with nominee := "Nobody" } 10 demo_state =
      .error .stopIteration := by rfl

/-- `Player.choose_mafia_target` (`player.py` lines 286–302): the legal
set is every other alive player; an empty set returns `None`; a reply
in the set is used as-is and any other reply is replaced by
`random.choice` over the set. -/
def choose_mafia_target (o : Oracle) (selfName : String)
    (alive_players : List String) (reply : String) : Option String :=
  let choices := alive_players.filter (fun nm => nm ≠ selfName)
  if choices = [] then none
  else if reply ∈ choices then some reply
  else some (py_choice o choices)

theorem py_choice_mem (o : Oracle) (l : List String) (hl : l ≠ []) :
    py_choice o l ∈ l := by
  unfold py_choice
  have hlen : 0 < l.length := List.length_pos.mpr hl
  have hidx : o.pickIdx l % l.length < l.length := Nat.mod_lt _ hlen
  rw [List.getD_eq_getElem l "" hidx]
  exact List.getElem_mem hidx

/-- `C8` (amended): at the decision points that *do* guard agent
replies — the president's and chancellor's discards
(`if ... not in ...: ... = random.choice(...)`) and the Mafia night
target — an out-of-range reply is replaced by a `random.choice` member
of the legal list, so the used value always lies in the legal set.
(The chancellor-nominee, investigation, special-election and execution
targets are *not* guarded this way; an illegal nominee raises instead
— see the counterexample.) -/
theorem illegal_choice_fallback :
    (∀ (o : Oracle) (choice : String) (legal : List String), legal ≠ [] →
      legal_or_random o choice legal ∈ legal) ∧
    (∀ (o : Oracle) (selfName : String) (alive_players : List String)
      (reply : String), alive_players.filter (fun nm => nm ≠ selfName) ≠ [] →
      ∃ t, choose_mafia_target o selfName alive_players reply = some t ∧
        t ∈ alive_players.filter (fun nm => nm ≠ selfName)) := by
  constructor
  · intro o choice legal hl
    unfold legal_or_random
    by_cases hc : choice ∈ legal
    · rw [if_pos hc]; exact hc
    · rw [if_neg hc]; exact py_choice_mem o legal hl
  · intro o selfName alive_players reply hne
    unfold choose_mafia_target
    rw [if_neg hne]
    by_cases hr : reply ∈ alive_players.filter (fun nm => nm ≠ selfName)
    · rw [if_pos hr]
      exact ⟨reply, rfl, hr⟩
    · rw [if_neg hr]
      exact ⟨py_choice o _, rfl, py_choice_mem o _ hne⟩

/-- `C8` counterexample: not every decision point substitutes a random
legal choice — the chancellor nominee is consumed unguarded, and a
nominee outside the alive roster makes `single_round` raise
`StopIteration` instead of substituting a legal nominee. -/
theorem invalid_nominee_not_substituted :
    single_round id_oracle { all_ja_agent with nominee := "Nobody" } demo_state =
      .error .stopIteration := by rfl

/-- Witness for `draw_policies_conservation`: drawing two cards from a
one-card deck forces the reshuffle and leaves the discard empty. -/
theorem draw_policies_conservation_witness :
    ∃ out deck' discard',
      draw_policies id 2 ["Liberal"] ["Fascist", "Fascist"] =
        some (out, deck', discard') ∧
      out.length = 2 ∧
      (out ++ deck' ++ discard').Perm (["Liberal"] ++ ["Fascist", "Fascist"]) ∧
      ((["Liberal"] : List String).length < 2 → discard' = []) :=
  draw_policies_conservation id (fun l => List.Perm.refl l) 2
    ["Liberal"] ["Fascist", "Fascist"] (by decide)

/-! ## Election-tracker dynamics -/

/-- `C4` counterexample: an accepted veto at tracker value 2 moves the
tracker to the configured maximum 3 but enacts nothing — the forced
top-deck path does not fire (`game.py` lines 224–230 increment the
tracker with no `>= 3` check), so "on reaching the configured maximum
of 3 the forced top-deck enactment path fires" is false.  The tallies
stay at (Liberal 0, Fascist 5) while the tracker reads 3. -/
theorem accepted_veto_no_topdeck :
    (single_round id_oracle
        { all_ja_agent with vetoRequest := "VETO", vetoAccept := "ACCEPT" }
        { demo_state with fascistPolicies := 5, electionTracker := 2 }).toOption.map
      (fun s => (s.electionTracker, s.liberalPolicies, s.fascistPolicies)) =
      some (3, 0, 5) := by rfl


theorem apply_power_counters (o : Oracle) (a : Agent) (pn pw : String)
    (s s' : GameState) (h : apply_power o a pn pw s = .ok s') :
    s'.electionTracker = s.electionTracker ∧
    s'.liberalPolicies = s.liberalPolicies ∧
    s'.fascistPolicies = s.fascistPolicies := by
  unfold apply_power at h
  simp only [] at h
  repeat' split at h
  all_goals cases h
  all_goals exact ⟨rfl, rfl, rfl⟩

theorem powers_fold_counters (o : Oracle) (a : Agent) (pn : String)
    (ps : List String) (s s' : GameState)
    (h : ps.foldlM (fun st pw => apply_power o a pn pw st) s = .ok s') :
    s'.electionTracker = s.electionTracker ∧
    s'.liberalPolicies = s.liberalPolicies ∧
    s'.fascistPolicies = s.fascistPolicies := by
  induction ps generalizing s with
  | nil =>
    cases h
    exact ⟨rfl, rfl, rfl⟩
  | cons p rest ih =>
    rw [List.foldlM_cons] at h
    cases ha : apply_power o a pn p s with
    | error e =>
      rw [ha] at h
      exact Except.noConfusion h
    | ok s1 =>
      rw [ha] at h
      obtain ⟨h1, h2, h3⟩ := ih s1 h
      obtain ⟨g1, g2, g3⟩ := apply_power_counters o a pn p s s1 ha
      exact ⟨h1.trans g1, h2.trans g2, h3.trans g3⟩

theorem apply_executive_powers_counters (o : Oracle) (a : Agent)
    (pn : String) (s s' : GameState)
    (h : apply_executive_powers o a pn s = .ok s') :
    s'.electionTracker = s.electionTracker ∧
    s'.liberalPolicies = s.liberalPolicies ∧
    s'.fascistPolicies = s.fascistPolicies := by
  unfold apply_executive_powers at h
  exact powers_fold_counters o a pn _ s s' h

theorem chancellor_enact_spec (o : Oracle) (a : Agent) (pn nom : String)
    (si : Bool) (alive : List PlayerSt) (two : List String)
    (s s' : GameState) (h : chancellor_enact o a pn nom si alive two s = .ok s') :
    s'.electionTracker = 0 ∧
    s'.liberalPolicies + s'.fascistPolicies =
      s.liberalPolicies + s.fascistPolicies + 1 := by
  unfold chancellor_enact at h
  simp only [] at h
  split at h
  · cases h
  · split at h
    · cases h
    · rename_i enacted tail htwo
      split at h
      · cases h
      · rename_i s6 hpow
        have h6 : s6.electionTracker = 0 ∧
            s6.liberalPolicies + s6.fascistPolicies =
              s.liberalPolicies + s.fascistPolicies + 1 := by
          by_cases hf : enacted = "Fascist"
          · rw [if_pos hf] at hpow
            obtain ⟨g1, g2, g3⟩ :=
              apply_executive_powers_counters o a pn _ s6 hpow
            rw [g1, g2, g3]
            by_cases hl : enacted = "Liberal" <;>
              simp [enact_policy, hl] <;> omega
          · rw [if_neg hf] at hpow
            cases hpow
            by_cases hl : enacted = "Liberal" <;>
              simp [enact_policy, hl] <;> omega
        split at h
        · split at h
          · cases h
            split <;> exact ⟨h6.1, h6.2⟩
          · cases h
            exact ⟨h6.1, h6.2⟩
        · cases h
          exact ⟨h6.1, h6.2⟩

theorem failed_government_spec (o : Oracle) (s : GameState)
    (alive : List PlayerSt) (s' : GameState)
    (h : failed_government o s alive = .ok s') :
    (s'.electionTracker = s.electionTracker + 1 ∧
      s'.liberalPolicies = s.liberalPolicies ∧
      s'.fascistPolicies = s.fascistPolicies) ∨
    (s'.electionTracker = 0 ∧
      s'.liberalPolicies + s'.fascistPolicies =
        s.liberalPolicies + s.fascistPolicies + 1) := by
  unfold failed_government at h
  simp only [] at h
  split at h
  · split at h
    · cases h
    · split at h
      · cases h
      · cases h
        rename_i top tail heq
        right
        refine ⟨?_, ?_⟩
        · by_cases ht : top = "Liberal" <;> simp [top_deck_enact, ht]
        · by_cases ht : top = "Liberal" <;> simp [top_deck_enact, ht] <;> omega
  · cases h
    left
    exact ⟨rfl, rfl, rfl⟩

theorem legislative_session_spec (o : Oracle) (a : Agent) (pn nom : String)
    (si : Bool) (alive : List PlayerSt) (s s' : GameState)
    (h : legislative_session o a pn nom si alive s = .ok s') :
    (s'.electionTracker = s.electionTracker + 1 ∧
      s'.liberalPolicies = s.liberalPolicies ∧
      s'.fascistPolicies = s.fascistPolicies) ∨
    (s'.electionTracker = 0 ∧
      s'.liberalPolicies + s'.fascistPolicies =
        s.liberalPolicies + s.fascistPolicies + 1) := by
  unfold legislative_session at h
  simp only [] at h
  split at h
  · cases h
  · split at h
    · split at h
      · cases h
        left
        exact ⟨rfl, rfl, rfl⟩
      · have hce := chancellor_enact_spec o a pn nom si alive _ _ s' h
        exact Or.inr hce
    · have hce := chancellor_enact_spec o a pn nom si alive _ _ s' h
      exact Or.inr hce

/-- `C4` (amended): per `single_round`, either the tracker increments
by exactly one and nothing is enacted (a failed vote below the
threshold, or an accepted veto — the latter even when it lifts the
tracker to 3 or beyond, since only a failed vote consults the
threshold), or exactly one policy is enacted and the tracker resets to
zero (the chancellor's enactment, or the forced top-deck draw fired by
a failed vote that brings the tracker to 3), or the Hitler-elected
instant win ends the round with tracker and tallies untouched.  In
particular the tracker never skips a value. -/
theorem tracker_step (o : Oracle) (a : Agent) (s s' : GameState)
    (h : single_round o a s = .ok s') :
    (s'.electionTracker = s.electionTracker + 1 ∧
      s'.liberalPolicies = s.liberalPolicies ∧
      s'.fascistPolicies = s.fascistPolicies) ∨
    (s'.electionTracker = 0 ∧
      s'.liberalPolicies + s'.fascistPolicies =
        s.liberalPolicies + s.fascistPolicies + 1) ∨
    (s'.winner = some "Fascists" ∧
      s'.electionTracker = s.electionTracker ∧
      s'.liberalPolicies = s.liberalPolicies ∧
      s'.fascistPolicies = s.fascistPolicies) := by
  unfold single_round at h
  simp only [] at h
  split at h
  · cases h
  · rename_i president si s1 heq
    have hs1 : s1.electionTracker = s.electionTracker ∧
        s1.liberalPolicies = s.liberalPolicies ∧
        s1.fascistPolicies = s.fascistPolicies := by
      unfold president_step at heq
      split at heq
      · split at heq
        · cases heq
        · cases heq; exact ⟨rfl, rfl, rfl⟩
      · split at heq
        · cases heq
        · cases heq; exact ⟨rfl, rfl, rfl⟩
    obtain ⟨e1, e2, e3⟩ := hs1
    split at h
    · split at h
      · cases h
      · split at h
        · cases h
          exact Or.inr (Or.inr ⟨rfl, e1, e2, e3⟩)
        · have hls := legislative_session_spec o a president.name a.nominee si
            (aliveOf s) s1 s' h
          rcases hls with ⟨g1, g2, g3⟩ | ⟨g1, g2⟩
          · exact Or.inl ⟨by rw [g1, e1], by rw [g2, e2], by rw [g3, e3]⟩
          · exact Or.inr (Or.inl ⟨g1, by rw [g2, e2, e3]⟩)
    · have hfg := failed_government_spec o s1 (aliveOf s) s' h
      rcases hfg with ⟨g1, g2, g3⟩ | ⟨g1, g2⟩
      · exact Or.inl ⟨by rw [g1, e1], by rw [g2, e2], by rw [g3, e3]⟩
      · exact Or.inr (Or.inl ⟨g1, by rw [g2, e2, e3]⟩)

/-- Witness for `tracker_step`: a unanimous NEIN vote at tracker 0
lands in the increment-by-one case. -/
theorem tracker_step_witness :
    (({ demo_state with electionTracker := 1, presidentIndex := 1 } :
        GameState).electionTracker = demo_state.electionTracker + 1 ∧
      ({ demo_state with electionTracker := 1, presidentIndex := 1 } :
        GameState).liberalPolicies = demo_state.liberalPolicies ∧
      ({ demo_state with electionTracker := 1, presidentIndex := 1 } :
        GameState).fascistPolicies = demo_state.fascistPolicies) ∨
    (({ demo_state with electionTracker := 1, presidentIndex := 1 } :
        GameState).electionTracker = 0 ∧
      ({ demo_state with electionTracker := 1, presidentIndex := 1 } :
        GameState).liberalPolicies +
        ({ demo_state with electionTracker := 1, presidentIndex := 1 } :
          GameState).fascistPolicies =
        demo_state.liberalPolicies + demo_state.fascistPolicies + 1) ∨
    (({ demo_state with electionTracker := 1, presidentIndex := 1 } :
        GameState).winner = some "Fascists" ∧
      ({ demo_state with electionTracker := 1, presidentIndex := 1 } :
        GameState).electionTracker = demo_state.electionTracker ∧
      ({ demo_state with electionTracker := 1, presidentIndex := 1 } :
        GameState).liberalPolicies = demo_state.liberalPolicies ∧
      ({ demo_state with electionTracker := 1, presidentIndex := 1 } :
        GameState).fascistPolicies = demo_state.fascistPolicies) :=
  tracker_step id_oracle { all_ja_agent with vote := fun _ => "NEIN" }
    demo_state { demo_state with electionTracker := 1, presidentIndex := 1 }
    (by rfl)

/-! ## Role assignment (`game.py`, `SecretHitlerGame.assign_roles`) -/

/-- The `setup` dictionary of `assign_roles` (`game.py` lines 56–63):
player count to (Liberal, Fascist, Hitler) counts; `none` stands for a
count outside 5–10. -/
def role_setup_table : Nat → Option (Nat × Nat × Nat)
  | 5 => some (3, 1, 1)
  | 6 => some (4, 1, 1)
  | 7 => some (4, 2, 1)
  | 8 => some (5, 2, 1)
  | 9 => some (5, 3, 1)
  | 10 => some (6, 3, 1)
  | _ => none

/-- `SecretHitlerGame.assign_roles` (`game.py` lines 53–75), reduced to
the role list it assigns: without an explicit list the table row is
replicated and shuffled (a `ValueError` outside 5–10 players); an
explicit list is only checked for its length (`assert len(roles) == n`)
— its content is never validated against the table. -/
def assign_roles (shuffle : List String → List String) (n : Nat)
    (rolesOpt : Option (List String)) : Except String (List String) :=
  match rolesOpt with
  | none =>
    match role_setup_table n with
    | none => .error "Secret Hitler supports 5-10 players."
    | some (lc, fc, hc) =>
      .ok (shuffle (List.replicate lc "Liberal" ++ List.replicate fc "Fascist" ++
        List.replicate hc "Hitler"))
  | some roles =>
    if roles.length = n then .ok roles else .error "AssertionError"

/-- `C7` (amended): with no explicit role list, `assign_roles` yields a
roster whose role multiset is exactly the table row for the player
count (e.g. 4 Liberal, 2 Fascist, 1 Hitler for n = 7) and raises a
setup error exactly for player counts outside 5–10; an explicitly
supplied role list, however, is only validated for its *length* — it
is accepted whether or not its role counts match the table. -/
theorem assign_roles_spec :
    (∀ (shuffle : List String → List String), (∀ l, (shuffle l).Perm l) →
      ∀ (n lc fc hc : Nat), role_setup_table n = some (lc, fc, hc) →
      ∃ roles, assign_roles shuffle n none = .ok roles ∧
        roles.Perm (List.replicate lc "Liberal" ++ List.replicate fc "Fascist" ++
          List.replicate hc "Hitler")) ∧
    role_setup_table 7 = some (4, 2, 1) ∧
    (∀ (shuffle : List String → List String) (n : Nat),
      role_setup_table n = none →
      assign_roles shuffle n none = .error "Secret Hitler supports 5-10 players.") ∧
    (∀ n : Nat, role_setup_table n = none ↔ n < 5 ∨ 10 < n) ∧
    (∀ (shuffle : List String → List String) (n : Nat) (roles : List String),
      assign_roles shuffle n (some roles) =
        if roles.length = n then .ok roles else .error "AssertionError") := by
  refine ⟨?_, rfl, ?_, ?_, ?_⟩
  · intro shuffle hsh n lc fc hc htab
    refine ⟨_, ?_, hsh _⟩
    unfold assign_roles
    rw [htab]
  · intro shuffle n htab
    unfold assign_roles
    rw [htab]
  · intro n
    constructor
    · intro htab
      by_contra hcon
      push_neg at hcon
      obtain ⟨h1, h2⟩ := hcon
      interval_cases n <;> simp [role_setup_table] at htab
    · intro hrange
      rcases hrange with h | h
      · interval_cases n <;> rfl
      · obtain ⟨m, rfl⟩ : ∃ m, n = m + 11 := ⟨n - 11, by omega⟩
        rfl
  · intro shuffle n roles
    rfl

/-- `C7` counterexample: an explicit all-Liberal roster for five
players is accepted by `assign_roles` even though the table row for
five players is (3 Liberal, 1 Fascist, 1 Hitler) — the roster has no
Hitler and no Fascist, so the explicit list is *not* validated against
the table. -/
theorem explicit_roles_not_validated :
    assign_roles id 5
        (some ["Liberal", "Liberal", "Liberal", "Liberal", "Liberal"]) =
      .ok ["Liberal", "Liberal", "Liberal", "Liberal", "Liberal"] ∧
    (["Liberal", "Liberal", "Liberal", "Liberal", "Liberal"] : List String).count
        "Hitler" = 0 ∧
    (["Liberal", "Liberal", "Liberal", "Liberal", "Liberal"] : List String).count
        "Fascist" = 0 ∧
    role_setup_table 5 = some (3, 1, 1) := by
  refine ⟨rfl, ?_, ?_, rfl⟩ <;> decide
